import Mathlib

/-!
Shallow embedding of `src/BaseError.ts` (class `BaseError`), the single
component of the `@shirudo/base-error` package, together with proofs about
the behaviour its specification describes: the user-message annex and its
lookup, construction (name inference, timestamps, stack capture and
filtering), and serialization (`toJSON`, `toString`, cause policy).

JavaScript host primitives (`Map`, `Date`, `Error.captureStackTrace`,
`JSON.stringify`/`parse`, string coercion) are modelled explicitly and
executably; everything the repository's own code does is translated
statement by statement.
-/

namespace BaseErrorSpec

/-! ## The host `Map<string, string>` used for `_localizedMessages`

A JS `Map` keeps insertion order and distinct keys; we model it as an
insertion-ordered association list. -/

/-- `Map.prototype.has`. -/
def mapHas (m : List (String × String)) (k : String) : Bool :=
  m.any (fun p => p.1 == k)

/-- `Map.prototype.get` (`undefined` becomes `none`). -/
def mapGet (m : List (String × String)) (k : String) : Option String :=
  (m.find? (fun p => p.1 == k)).map Prod.snd

/-- `Map.prototype.set`: overwrite in place when the key exists, else append. -/
def mapSet (m : List (String × String)) (k v : String) : List (String × String) :=
  if mapHas m k then m.map (fun p => if p.1 == k then (k, v) else p)
  else m ++ [(k, v)]

/-! ## JSON documents and JavaScript values -/

/-- JSON document values: exactly what a successful
`JSON.parse(JSON.stringify(x))` round trip can produce. -/
inductive Json where
  | null
  | boolVal (b : Bool)
  | numVal (n : Int)
  | strVal (s : String)
  | arr (elems : List Json)
  | obj (fields : List (String × Json))

/-- JavaScript runtime values, as far as the cause-handling code of
`BaseError` observes them.  An `Error` instance exposes `name`, `message`,
`stack` and its own `cause` field (`undef` when never set).  A non-`Error`
object exposes `constructor?.name` (`none` when `constructor` is absent),
its `Object.keys` list, and the outcome of a `JSON.parse(JSON.stringify ·)`
round trip — `none` models `JSON.stringify` throwing (circular values). -/
inductive JSVal where
  | undef
  | null
  | boolVal (b : Bool)
  | numVal (n : Int)
  | strVal (s : String)
  | errorVal (name message : String) (stack : Option String) (cause : JSVal)
  | objVal (ctorName : Option String) (keys : List String) (roundTrip : Option Json)

/-- JS truthiness (`ToBoolean`) for the values of `JSVal`. -/
def JSVal.truthy : JSVal → Bool
  | .undef => false
  | .null => false
  | .boolVal b => b
  | .numVal n => n != 0
  | .strVal s => s != ""
  | .errorVal _ _ _ _ => true
  | .objVal _ _ _ => true

/-- `Error.prototype.toString`: `"name: message"`, degenerating gracefully
when either part is empty. -/
def errorDisplay (name message : String) : String :=
  if name == "" then message
  else if message == "" then name
  else name ++ ": " ++ message

/-- JS string coercion (template-literal interpolation `${v}`) for the
values of `JSVal`. -/
def JSVal.display : JSVal → String
  | .undef => "undefined"
  | .null => "null"
  | .boolVal b => if b then "true" else "false"
  | .numVal n => toString n
  | .strVal s => s
  | .errorVal n m _ _ => errorDisplay n m
  | .objVal _ _ _ => "[object Object]"

/-! ## Host clock and ISO codec

`Date.now()` and `new Date().toISOString()` / `Date.parse` are platform
intrinsics, not repository code.  The only fact about the ISO text form the
specification relies on is that `Date.parse` exactly inverts `toISOString`
on millisecond timestamps; we therefore model the codec by an arbitrary
executable injection whose inverse is `dateParse`. -/

/-- Host model of `new Date(t).toISOString()`: an executable injection of
the millisecond timestamp into a string. -/
def isoEncode (t : Nat) : String :=
  String.mk (List.replicate t 'Z')

/-- Host model of `Date.parse` on strings produced by `isoEncode`. -/
def dateParse (s : String) : Nat :=
  s.data.length

theorem dateParse_isoEncode (t : Nat) : dateParse (isoEncode t) = t := by
  simp [dateParse, isoEncode]

/-! ## Stack capture and filtering

`#captureStack` / `#filterInternalFrames` from `src/BaseError.ts`
(lines 296-359).  The host is summarized by: the value of
`Error.stackTraceLimit` (a `number | undefined` global), whether
`Error.captureStackTrace` exists and what raw trace it writes onto the
instance, and what `.stack` a thrown throwaway `Error` carries. -/

/-- Host state observed by the stack-capture routine. -/
structure Host where
  stackTraceLimit : Option Nat
  captureStackTrace : Option String
  thrownStack : Option String

/-- Splits a character list at every newline character
(JS `stack.split("\n")`: a split on a one-character separator). -/
def splitNl : List Char → List (List Char)
  | [] => [[]]
  | c :: cs =>
    match splitNl cs with
    | [] => [[c]]
    | l :: ls => if c == '\n' then [] :: l :: ls else (c :: l) :: ls

/-- JS `stack.split("\n")` on strings. -/
def splitLines (s : String) : List String :=
  (splitNl s.data).map (fun l => String.mk l)

/-- JS `filteredLines.join("\n")`. -/
def joinNl : List String → String
  | [] => ""
  | [l] => l
  | l :: ls => l ++ "\n" ++ joinNl ls

/-- Is `pat` a prefix of `s` (character lists)? -/
def isPrefixL : List Char → List Char → Bool
  | [], _ => true
  | _ :: _, [] => false
  | p :: ps, c :: cs => p == c && isPrefixL ps cs

/-- Does `pat` occur inside `s` (character lists)? -/
def occursL (pat : List Char) : List Char → Bool
  | [] => isPrefixL pat []
  | c :: cs => isPrefixL pat (c :: cs) || occursL pat cs

/-- JS `line.includes(pat)`: substring occurrence. -/
def containsSub (s pat : String) : Bool :=
  occursL pat.data s.data

/-- The frame filter of `#filterInternalFrames` (lines 342-351): a raw
trace line is dropped when it mentions any of the internal marker
substrings. -/
def isInternalFrame (line : String) : Bool :=
  containsSub line "#captureStack" ||
  containsSub line "#filterInternalFrames" ||
  containsSub line "BaseError.constructor" ||
  containsSub line "new BaseError" ||
  containsSub line "captureStack_fn" ||
  containsSub line "filterInternalFrames_fn" ||
  (containsSub line "Object.<anonymous>" && containsSub line "captureStack")

/-- The line list `#filterInternalFrames` builds from the raw trace lines:
the replaced header `"<name>: <message>"` followed by every raw line after
the first that is not an internal frame. -/
def filteredLines (name message : String) (rawLines : List String) : List String :=
  (name ++ ": " ++ message) :: (rawLines.drop 1).filter (fun l => !(isInternalFrame l))

/-- `#filterInternalFrames` (lines 324-359).  `if (!stack) return undefined`
is JS truthiness: both `undefined` and `""` yield `undefined`. -/
def filterInternalFrames (name message : String) (stack : Option String) : Option String :=
  match stack with
  | none => none
  | some st =>
    if st == "" then none
    else some (joinNl (filteredLines name message (splitLines st)))

/-- The string `#captureStack` (lines 296-318) returns.  On V8 hosts
`Error.captureStackTrace(this, this.constructor)` writes a raw trace onto
the instance, which is then filtered; elsewhere a throwaway `Error` is
thrown and its `.stack` — possibly absent, or empty hence falsy
(`if (!tempStack) return undefined`) — is filtered. -/
def captureStackResult (h : Host) (name message : String) : Option String :=
  match h.captureStackTrace with
  | some raw => filterInternalFrames name message (some raw)
  | none =>
    match h.thrownStack with
    | none => none
    | some ts =>
      if ts == "" then none
      else filterInternalFrames name message (some ts)

/-- `#captureStack` together with the host state after the call: the
routine only reads the host — it never writes any host global (in
particular it never touches `Error.stackTraceLimit` on any path), so the
post-call host state is the input state. -/
def captureStack (h : Host) (name message : String) : Option String × Host :=
  (captureStackResult h name message, h)

/-! ## The entity and its construction -/

/-- The state of one `BaseError` instance.  `name`/`message` are the
identity fields, `timestamp`/`timestampIso` the two timestamp encodings,
`stack` the filtered trace, `cause` the (possibly never-set, hence
`undef`) cause annex, and the last two fields are the user-message annex
(`_defaultUserMessage`, `_localizedMessages`). -/
structure ErrorEntity where
  name : String
  message : String
  timestamp : Nat
  timestampIso : String
  stack : Option String
  cause : JSVal
  defaultUserMessage : Option String
  localizedMessages : List (String × String)

/-- The constructor (lines 61-78).  `ctorName` is the runtime value of
`this.constructor.name` (see `runtimeCtorName` below for the prototype
lookup it performs); `tNow` and `tIso` are the results of the two
successive ambient clock reads made by the field initializers
`timestamp = Date.now()` and `timestampIso = new Date().toISOString()`.
A cause parameter that was omitted at the call site is `JSVal.undef`, and
the `cause !== undefined` guard means the annex keeps `undef` exactly
then.  The user-message annex starts empty. -/
def mkBaseError (h : Host) (ctorName message : String) (cause : JSVal)
    (tNow tIso : Nat) : ErrorEntity × Host :=
  let cap := captureStack h ctorName message
  (⟨ctorName, message, tNow, isoEncode tIso, cap.1, cause, none, []⟩, cap.2)

/-! ## The user-message annex (lines 90-149) -/

/-- Functional update of the `_localizedMessages` field; every other field
is carried over unchanged. -/
def setLocalizedMessages (e : ErrorEntity) (m : List (String × String)) : ErrorEntity :=
  ⟨e.name, e.message, e.timestamp, e.timestampIso, e.stack, e.cause,
    e.defaultUserMessage, m⟩

/-- `withUserMessage` (lines 90-93): overwrites `_defaultUserMessage` and
returns the instance for chaining. -/
def withUserMessage (e : ErrorEntity) (message : String) : ErrorEntity :=
  ⟨e.name, e.message, e.timestamp, e.timestampIso, e.stack, e.cause,
    some message, e.localizedMessages⟩

/-- The exception `addLocalizedMessage` throws on a duplicate tag.  The
source throws `new Error("Localized message for language ... already
exists. Use updateLocalizedMessage() to modify existing messages.")`; the
specification names this condition `DuplicateLocalization`. -/
inductive AnnexError where
  | duplicateLocalization (lang : String)

/-- `addLocalizedMessage` (lines 103-111): throws when the tag already has
an entry, otherwise inserts it and returns the instance. -/
def addLocalizedMessage (e : ErrorEntity) (lang message : String) :
    Except AnnexError ErrorEntity :=
  if mapHas e.localizedMessages lang then
    .error (.duplicateLocalization lang)
  else
    .ok (setLocalizedMessages e (mapSet e.localizedMessages lang message))

/-- The state of the instance after an `addLocalizedMessage` call returns
or throws.  In the source the `throw` (line 105) precedes the
`_localizedMessages.set` (line 109), so a throwing call leaves the
instance exactly as it was. -/
def addLocalizedMessagePost (e : ErrorEntity) (lang message : String) : ErrorEntity :=
  match addLocalizedMessage e lang message with
  | .ok e2 => e2
  | .error _ => e

/-- `updateLocalizedMessage` (lines 120-123): unconditionally inserts or
overwrites; never throws. -/
def updateLocalizedMessage (e : ErrorEntity) (lang message : String) : ErrorEntity :=
  setLocalizedMessages e (mapSet e.localizedMessages lang message)

/-- JS truthiness of a `string | undefined` value: `undefined` and the
empty string are falsy. -/
def strTruthy : Option String → Bool
  | none => false
  | some s => s != ""

/-- `getUserMessage` (lines 131-149).  The two guards are
`preferredLang && this._localizedMessages.has(preferredLang)` and the
analogue for `fallbackLang`: JS truthiness, so an absent *or empty* tag
skips its step.  The `getD ""` is only reached when the option is a
non-empty `some`, where it is inert. -/
def getUserMessage (e : ErrorEntity) (preferredLang fallbackLang : Option String) :
    Option String :=
  if strTruthy preferredLang && mapHas e.localizedMessages (preferredLang.getD "") then
    mapGet e.localizedMessages (preferredLang.getD "")
  else if strTruthy fallbackLang && mapHas e.localizedMessages (fallbackLang.getD "") then
    mapGet e.localizedMessages (fallbackLang.getD "")
  else
    e.defaultUserMessage

/-- Modelled from the spec's words (for comparison with `getUserMessage`,
which is translated from the source): the three-step lookup of §4.2 —
step 1 fires whenever `preferredLang` is *given* (present at all) and has
an entry, step 2 likewise for `fallbackLang`, step 3 returns the default
message or the absent value. -/
def specResolveUserMessage (e : ErrorEntity) (preferredLang fallbackLang : Option String) :
    Option String :=
  if preferredLang.isSome && mapHas e.localizedMessages (preferredLang.getD "") then
    mapGet e.localizedMessages (preferredLang.getD "")
  else if fallbackLang.isSome && mapHas e.localizedMessages (fallbackLang.getD "") then
    mapGet e.localizedMessages (fallbackLang.getD "")
  else
    e.defaultUserMessage

/-! ## Serialization (lines 152-273) -/

/-- The result of `#serializeCause`: the cause either passes through
unchanged (`undefined`, `null`, primitives), or is expanded into the
`{name, message, stack, cause}` record of an `Error`, or is replaced by
the JSON round-trip copy of a plain object, or by the bounded circular
summary string. -/
inductive CauseJson where
  | same (v : JSVal)
  | errObj (name message : String) (stack : Option String) (cause : CauseJson)
  | jsonCopy (v : Json)
  | summary (s : String)

/-- JS `keys.join(", ")`. -/
def joinCommaSep : List String → String
  | [] => ""
  | [k] => k
  | k :: ks => k ++ ", " ++ joinCommaSep ks

/-- `obj.constructor?.name || "Object"` from `#serializeCircularObject`
(line 267): JS truthiness, so an absent constructor *or an empty-string
name* falls back to `"Object"`. -/
def circularTypeName : Option String → String
  | some n => if n == "" then "Object" else n
  | none => "Object"

/-- The `keyInfo` part of the circular summary (lines 268-269):
the first five keys, or nothing when there are none. -/
def circularKeyInfo (keys : List String) : String :=
  if (keys.take 5).length > 0 then
    " with keys: [" ++ joinCommaSep (keys.take 5) ++ "]"
  else ""

/-- The `moreKeys` ellipsis marker (line 270): appended exactly when the
object has more than five keys. -/
def circularMore (keys : List String) : String :=
  if keys.length > 5 then "..." else ""

/-- `#serializeCircularObject` (lines 266-273). -/
def serializeCircularObject (ctorName : Option String) (keys : List String) : String :=
  "[Circular " ++ circularTypeName ctorName ++ circularKeyInfo keys ++
    circularMore keys ++ "]"

/-- `#serializeCause` (lines 229-260): the four-branch cause policy. -/
def serializeCause : JSVal → CauseJson
  | .undef => .same .undef
  | .null => .same .null
  | .errorVal n m st c => .errObj n m st (serializeCause c)
  | .objVal ct ks rt =>
    match rt with
    | some v => .jsonCopy v
    | none => .summary (serializeCircularObject ct ks)
  | .boolVal b => .same (.boolVal b)
  | .numVal n => .same (.numVal n)
  | .strVal s => .same (.strVal s)

/-- A value of the JSON record `toJSON` produces: strings, numbers, the
absent value (for a missing stack), the serialized cause, and the plain
object `Object.fromEntries(this._localizedMessages)`. -/
inductive JField where
  | strVal (v : String)
  | numVal (v : Nat)
  | undef
  | causeVal (v : CauseJson)
  | strMap (entries : List (String × String))

/-- `toJSON` (lines 152-174): the six unconditional fields in source
order, then `userMessage` only when `this._defaultUserMessage` is truthy
(set *and* non-empty), then `localizedMessages` only when the map is
non-empty.  The `getD ""` is only reached when the default message is a
non-empty `some`, where it is inert. -/
def toJSON (e : ErrorEntity) : List (String × JField) :=
  [("name", .strVal e.name),
   ("message", .strVal e.message),
   ("timestamp", .numVal e.timestamp),
   ("timestampIso", .strVal e.timestampIso),
   ("stack", match e.stack with | some s => .strVal s | none => .undef),
   ("cause", .causeVal (serializeCause e.cause))]
  ++ (if strTruthy e.defaultUserMessage then
        [("userMessage", JField.strVal (e.defaultUserMessage.getD ""))]
      else [])
  ++ (if e.localizedMessages.length > 0 then
        [("localizedMessages", JField.strMap e.localizedMessages)]
      else [])

/-- Does the JSON record contain the key at all? -/
def hasField (fields : List (String × JField)) (k : String) : Bool :=
  fields.any (fun p => p.1 == k)

/-- Looks a key up in the JSON record. -/
def getField (fields : List (String × JField)) (k : String) : Option JField :=
  (fields.find? (fun p => p.1 == k)).map Prod.snd

/-- `toString` (lines 176-182): `"[<name>] <message>"` plus a
`"\nCaused by: <cause>"` segment exactly when the cause annex holds a
truthy value (the template-literal conditional `cause ? ... : ""`). -/
def ErrorEntity.toDisplay (e : ErrorEntity) : String :=
  "[" ++ e.name ++ "] " ++ e.message ++
    (if e.cause.truthy then "\nCaused by: " ++ e.cause.display else "")

/-! ## Name inference through the prototype chain

`this.name = this.constructor.name` (line 66).  Under JS class semantics
`new C(...)` creates `this` with prototype `C.prototype`, every class
declaration installs the own property `constructor` on its prototype
(bound to the class itself), and property access walks the prototype
chain taking the first own occurrence. -/

/-- A declared class: all that matters here is the name it is declared
under (its runtime `Function.name`). -/
structure JSClass where
  declaredName : String

/-- The own-property table a class declaration installs on its
`prototype`: the single own property `constructor`, bound to the class. -/
def classProto (c : JSClass) : List (String × JSClass) :=
  [("constructor", c)]

/-- The prototype chain of an object made by `new C` where `C` is the
head of `chain` (most-derived subtype first, base classes after it). -/
def protoChain (chain : List JSClass) : List (List (String × JSClass)) :=
  chain.map classProto

/-- JS property lookup along a prototype chain: the first own occurrence
of the property wins. -/
def lookupProp : List (List (String × JSClass)) → String → Option JSClass
  | [], _ => none
  | p :: rest, k =>
    match (p.find? (fun q => q.1 == k)).map Prod.snd with
    | some v => some v
    | none => lookupProp rest k

/-- The runtime value of `this.constructor.name` inside the `BaseError`
constructor when the instance is built through the given subtype chain
(most-derived first).  The `""` default is unreachable for a real
construction, whose chain is non-empty. -/
def runtimeCtorName (chain : List JSClass) : String :=
  match lookupProp (protoChain chain) "constructor" with
  | some c => c.declaredName
  | none => ""

/-- Construction of a `BaseError` through a chain of subtype extensions:
line 66 assigns the prototype-chain lookup result to `this.name`. -/
def constructViaChain (h : Host) (chain : List JSClass) (message : String)
    (cause : JSVal) (tNow tIso : Nat) : ErrorEntity × Host :=
  mkBaseError h (runtimeCtorName chain) message cause tNow tIso

/-! ## Construction sequences (host-global state threading) -/

/-- The arguments of one construction in a sequence. -/
structure ConstructArgs where
  ctorName : String
  message : String
  cause : JSVal
  tNow : Nat
  tIso : Nat

/-- Runs a sequence of constructions, threading the host state through. -/
def constructSeq (h : Host) : List ConstructArgs → Host
  | [] => h
  | a :: rest =>
    constructSeq (mkBaseError h a.ctorName a.message a.cause a.tNow a.tIso).2 rest

/-! ## Depth measures for the cause chain -/

/-- Length of the chain of nested `Error` causes of a JS value. -/
def causeChainDepth : JSVal → Nat
  | .errorVal _ _ _ c => causeChainDepth c + 1
  | _ => 0

/-- Length of the chain of nested `errObj` records in a serialized cause. -/
def serChainDepth : CauseJson → Nat
  | .errObj _ _ _ c => serChainDepth c + 1
  | _ => 0

/-! ## Concrete fixtures -/

/-- A minimal host: no fast-path capture primitive and no trace on thrown
values. -/
def hostBare : Host := ⟨none, none, none⟩

/-- A V8-style host whose capture primitive writes a short clean raw
trace. -/
def hostV8 : Host :=
  ⟨some 10, some "Error\n    at doWork (app.js:10:5)\n    at main (app.js:20:1)", none⟩

/-- A V8-style host whose raw trace still carries an internal
construction frame that the filter must drop. -/
def hostV8Internal : Host :=
  ⟨some 10,
   some "Error\n    at new BaseError (BaseError.ts:61:3)\n    at doWork (app.js:10:5)",
   none⟩

/-- A freshly constructed entity on the minimal host. -/
def bareEnt : ErrorEntity :=
  (mkBaseError hostBare "TestError" "boom" .undef 0 0).1

/-- `bareEnt` after a successful `addLocalizedMessage("en", "a")`. -/
def seqEnt1 : ErrorEntity :=
  addLocalizedMessagePost bareEnt "en" "a"

/-- An entity whose localization map has an entry under the *empty*
language tag and whose default message is `"D"`. -/
def emptyTagEnt : ErrorEntity :=
  withUserMessage (updateLocalizedMessage bareEnt "" "X") "D"

/-- An entity holding `{en: "E", fr: "F"}` and default `"D"`. -/
def frEnt : ErrorEntity :=
  withUserMessage
    (updateLocalizedMessage (updateLocalizedMessage bareEnt "en" "E") "fr" "F") "D"

/-- An entity holding only `{en: "E"}` and default `"D"`. -/
def enOnlyEnt : ErrorEntity :=
  withUserMessage (updateLocalizedMessage bareEnt "en" "E") "D"

/-- An entity whose default user message was populated with the empty
string. -/
def emptyDefaultEnt : ErrorEntity :=
  withUserMessage bareEnt ""

/-- An entity with no default message whose localization map has an entry
under the empty language tag. -/
def c10Ent : ErrorEntity :=
  updateLocalizedMessage bareEnt "" "a"

/-- The raw trace the capture routine works from: what the capture
primitive writes when present, else the `.stack` of the thrown throwaway
error. -/
def rawTraceOf (h : Host) : Option String :=
  match h.captureStackTrace with
  | some raw => some raw
  | none => h.thrownStack

/-! ## Helper lemmas about the localization map -/

theorem mapHas_eq_isSome (m : List (String × String)) (k : String) :
    mapHas m k = (mapGet m k).isSome := by
  induction m with
  | nil => rfl
  | cons p rest ih =>
    simp only [mapHas, mapGet, List.any_cons, List.find?]
    cases hp : (p.1 == k) with
    | true => simp [hp]
    | false =>
      simp only [hp, Bool.false_or]
      exact ih

theorem mapGet_overwrite (m : List (String × String)) (k v : String)
    (h : mapHas m k = true) :
    mapGet (m.map (fun p => if p.1 == k then (k, v) else p)) k = some v := by
  induction m with
  | nil => simp [mapHas] at h
  | cons p rest ih =>
    cases hp : (p.1 == k) with
    | true =>
      simp [mapGet, List.find?, List.map_cons, hp]
    | false =>
      have h2 : mapHas rest k = true := by
        have := h
        simp only [mapHas, List.any_cons, hp, Bool.false_or] at this
        exact this
      simp only [List.map_cons, hp, Bool.false_eq_true, if_false]
      simp only [mapGet, List.find?, hp]
      exact ih h2

theorem mapGet_append_single (m : List (String × String)) (k v : String)
    (h : mapHas m k = false) :
    mapGet (m ++ [(k, v)]) k = some v := by
  induction m with
  | nil => simp [mapGet, List.find?]
  | cons p rest ih =>
    have hp : (p.1 == k) = false := by
      cases hp : (p.1 == k) with
      | true => simp [mapHas, hp] at h
      | false => rfl
    have h2 : mapHas rest k = false := by
      have := h
      simp only [mapHas, List.any_cons, hp, Bool.false_or] at this
      exact this
    simp only [List.cons_append, mapGet, List.find?, hp]
    exact ih h2

theorem mapGet_mapSet_self (m : List (String × String)) (k v : String) :
    mapGet (mapSet m k v) k = some v := by
  unfold mapSet
  cases h : mapHas m k with
  | true => simp only [if_true]; exact mapGet_overwrite m k v h
  | false => simp only [if_false, Bool.false_eq_true]; exact mapGet_append_single m k v h

theorem mapHas_mapSet_self (m : List (String × String)) (k v : String) :
    mapHas (mapSet m k v) k = true := by
  rw [mapHas_eq_isSome, mapGet_mapSet_self]
  rfl

/-! ## Claim theorems -/

/-- C1 (counterexample): the literal three-step lookup fails on the code
for the empty language tag.  `emptyTagEnt` stores an entry under the tag
`""` and has default message `"D"`; the spec lookup (step 1: preferred
tag given and present) returns the stored `"X"`, but `getUserMessage`
skips the step — `preferredLang && ...` is falsy for `""` — and returns
the default `"D"`. -/
theorem getUserMessage_empty_tag_cx :
    mapHas emptyTagEnt.localizedMessages "" = true ∧
    mapGet emptyTagEnt.localizedMessages "" = some "X" ∧
    specResolveUserMessage emptyTagEnt (some "") none = some "X" ∧
    getUserMessage emptyTagEnt (some "") none = some "D" ∧
    getUserMessage emptyTagEnt (some "") none ≠
      specResolveUserMessage emptyTagEnt (some "") none := by
  refine ⟨rfl, rfl, rfl, rfl, ?_⟩
  decide

/-- C1 (amended): for language tags that are either absent or non-empty
(the only change the counterexample forces: a given-but-empty tag is
treated by the code as not given), `getUserMessage` computes exactly the
spec's three-step lookup — preferred tag first, then fallback tag, then
the default message, with tags compared by exact string equality only —
and, being a total function into `Option String`, it never raises. -/
theorem getUserMessage_threeStep (e : ErrorEntity) (pl fl : Option String)
    (hp : pl ≠ some "") (hf : fl ≠ some "") :
    getUserMessage e pl fl = specResolveUserMessage e pl fl := by
  have hp2 : strTruthy pl = pl.isSome := by
    cases pl with
    | none => rfl
    | some s =>
      have hs : s ≠ "" := fun hh => hp (by rw [hh])
      simp [strTruthy, hs]
  have hf2 : strTruthy fl = fl.isSome := by
    cases fl with
    | none => rfl
    | some s =>
      have hs : s ≠ "" := fun hh => hf (by rw [hh])
      simp [strTruthy, hs]
  unfold getUserMessage specResolveUserMessage
  rw [hp2, hf2]

/-- C1 (witness): the amended theorem applied at the spec's own worked
example — with `{en: "E", fr: "F"}` present and default `"D"`,
`resolveUserMessage({preferredLang: "fr"})` returns `"F"`; with only
`{en: "E"}` present it falls back to the default `"D"`. -/
theorem getUserMessage_threeStep_witness :
    getUserMessage frEnt (some "fr") none = specResolveUserMessage frEnt (some "fr") none ∧
    getUserMessage frEnt (some "fr") none = some "F" ∧
    getUserMessage enOnlyEnt (some "fr") none = some "D" :=
  ⟨getUserMessage_threeStep frEnt (some "fr") none (by decide) (by decide), rfl, rfl⟩

/-- C2: `addLocalizedMessage` throws `DuplicateLocalization` exactly when
the tag already has an entry, and otherwise inserts the entry and returns
the (updated) instance; `updateLocalizedMessage` is a total function — it
never throws — and unconditionally inserts or overwrites; and in the
sequence `addLocalizedMessage("en","a"); addLocalizedMessage("en","b")`
the second call fails, while `updateLocalizedMessage("en","b")` in its
place succeeds and a subsequent resolve for `"en"` returns `"b"`. -/
theorem addLocalized_updateLocalized_contract :
    (∀ (e : ErrorEntity) (lang msg : String),
      addLocalizedMessage e lang msg = .error (.duplicateLocalization lang) ↔
        mapHas e.localizedMessages lang = true) ∧
    (∀ (e : ErrorEntity) (lang msg : String),
      mapHas e.localizedMessages lang = false →
        addLocalizedMessage e lang msg =
          .ok (setLocalizedMessages e (mapSet e.localizedMessages lang msg))) ∧
    (∀ (e : ErrorEntity) (lang msg : String),
      mapGet (updateLocalizedMessage e lang msg).localizedMessages lang = some msg) ∧
    (∀ e : ErrorEntity, mapHas e.localizedMessages "en" = false →
      ∀ e1, addLocalizedMessage e "en" "a" = .ok e1 →
        addLocalizedMessage e1 "en" "b" = .error (.duplicateLocalization "en") ∧
        getUserMessage (updateLocalizedMessage e1 "en" "b") (some "en") none = some "b") := by
  refine ⟨?_, ?_, ?_, ?_⟩
  · intro e lang msg
    unfold addLocalizedMessage
    cases h : mapHas e.localizedMessages lang with
    | true => simp
    | false => simp
  · intro e lang msg h
    unfold addLocalizedMessage
    simp [h]
  · intro e lang msg
    exact mapGet_mapSet_self e.localizedMessages lang msg
  · intro e h e1 h1
    have he1 : e1 = setLocalizedMessages e (mapSet e.localizedMessages "en" "a") := by
      unfold addLocalizedMessage at h1
      rw [if_neg (by simp [h])] at h1
      exact (Except.ok.inj h1).symm
    have hh : mapHas e1.localizedMessages "en" = true := by
      rw [he1]
      exact mapHas_mapSet_self e.localizedMessages "en" "a"
    constructor
    · unfold addLocalizedMessage
      rw [if_pos hh]
    · unfold getUserMessage
      simp [strTruthy, mapHas_mapSet_self, mapGet_mapSet_self, updateLocalizedMessage,
        setLocalizedMessages]

/-- C2 (witness): the contract's sequence clause applied to a freshly
constructed entity: the duplicate `add` for `"en"` fails, the `update` in
its place succeeds, and the resolve returns `"b"`. -/
theorem addLocalized_updateLocalized_witness :
    addLocalizedMessage seqEnt1 "en" "b" = .error (.duplicateLocalization "en") ∧
    getUserMessage (updateLocalizedMessage seqEnt1 "en" "b") (some "en") none = some "b" :=
  addLocalized_updateLocalized_contract.2.2.2 bareEnt rfl seqEnt1 rfl

/-- C3: for every construction through any non-empty chain of subtype
extensions, the entity's `name` is the declared name of the most-derived
constructing subtype (the head of the chain) — never the generic base
name further down the chain — because `this.constructor` resolves to the
first own `constructor` binding on the prototype chain, which the
most-derived class installs.  Moreover every mutating annex operation
preserves `name`, so it is fixed exactly once, at construction. -/
theorem name_inference_mostDerived :
    (∀ (h : Host) (c : JSClass) (rest : List JSClass) (message : String)
        (cause : JSVal) (tNow tIso : Nat),
      ((constructViaChain h (c :: rest) message cause tNow tIso).1).name =
        c.declaredName) ∧
    (∀ (e : ErrorEntity) (lang msg : String),
      (withUserMessage e msg).name = e.name ∧
      (updateLocalizedMessage e lang msg).name = e.name ∧
      (addLocalizedMessagePost e lang msg).name = e.name) := by
  constructor
  · intro h c rest message cause tNow tIso
    rfl
  · intro e lang msg
    refine ⟨rfl, rfl, ?_⟩
    unfold addLocalizedMessagePost addLocalizedMessage
    cases hh : mapHas e.localizedMessages lang with
    | true => simp [hh]
    | false => simp [hh, setLocalizedMessages]

/-- C4 (counterexample): `timestamp` and `timestampIso` come from two
*separate* ambient clock reads — `Date.now()` in the `timestamp` field
initializer and `new Date().toISOString()` in the `timestampIso` field
initializer, executed one after the other.  When the (monotone) clock
advances between the two reads — here from 0 to 1, a single millisecond
tick — the two fields encode different instants, so the claimed equality
`timestamp = Date.parse(timestampIso)` fails. -/
theorem timestamps_two_reads_cx :
    ((mkBaseError hostBare "E" "m" .undef 0 1).1).timestamp = 0 ∧
    dateParse ((mkBaseError hostBare "E" "m" .undef 0 1).1).timestampIso = 1 ∧
    ((mkBaseError hostBare "E" "m" .undef 0 1).1).timestamp ≠
      dateParse ((mkBaseError hostBare "E" "m" .undef 0 1).1).timestampIso := by
  refine ⟨rfl, rfl, ?_⟩
  decide

/-- C4 (amended): both timestamp fields are captured at construction, but
from two *consecutive* ambient clock reads rather than one shared read;
they encode the same instant — `timestamp = Date.parse(timestampIso)` —
exactly when the clock does not advance between those two reads (as under
a frozen test clock). -/
theorem timestamps_same_instant_when_no_tick (h : Host) (n m : String) (c : JSVal)
    (tNow tIso : Nat) (hEq : tNow = tIso) :
    ((mkBaseError h n m c tNow tIso).1).timestamp =
      dateParse ((mkBaseError h n m c tNow tIso).1).timestampIso := by
  subst hEq
  show tNow = dateParse (isoEncode tNow)
  rw [dateParse_isoEncode]

/-- C4 (witness): the amended theorem at a concrete construction whose
two clock reads both return 5. -/
theorem timestamps_same_instant_witness :
    ((mkBaseError hostBare "E" "m" .undef 5 5).1).timestamp =
      dateParse ((mkBaseError hostBare "E" "m" .undef 5 5).1).timestampIso :=
  timestamps_same_instant_when_no_tick hostBare "E" "m" .undef 5 5 rfl

/-- C5: the four-branch cause-serialization policy of `#serializeCause`,
as used by `toJSON`: absent/null and primitive scalars pass through
unchanged; a nested error expands recursively to
`{name, message, stack, cause}` with the recursion depth equal to the
real cause-chain depth; a plain object with a succeeding JSON round trip
is replaced by the round-trip copy; a failing round trip falls back to
the bounded summary `"[Circular <type><keys...><ellipsis>]"` whose
ellipsis marker appears exactly when the object has more than 5 keys and
which lists at most the first 5 key names; and `toJSON` stores exactly
this serialization under its `cause` field. -/
theorem serializeCause_policy :
    (serializeCause .undef = .same .undef) ∧
    (serializeCause .null = .same .null) ∧
    (∀ b, serializeCause (.boolVal b) = .same (.boolVal b)) ∧
    (∀ n : Int, serializeCause (.numVal n) = .same (.numVal n)) ∧
    (∀ s, serializeCause (.strVal s) = .same (.strVal s)) ∧
    (∀ (n m : String) (st : Option String) (c : JSVal),
      serializeCause (.errorVal n m st c) = .errObj n m st (serializeCause c)) ∧
    (∀ v : JSVal, serChainDepth (serializeCause v) = causeChainDepth v) ∧
    (∀ (ct : Option String) (ks : List String) (v : Json),
      serializeCause (.objVal ct ks (some v)) = .jsonCopy v) ∧
    (∀ (ct : Option String) (ks : List String),
      serializeCause (.objVal ct ks none) =
        .summary ("[Circular " ++ circularTypeName ct ++ circularKeyInfo ks ++
          circularMore ks ++ "]")) ∧
    (∀ ks : List String, circularMore ks = "..." ↔ 5 < ks.length) ∧
    (∀ ks : List String, ks ≠ [] →
      circularKeyInfo ks = " with keys: [" ++ joinCommaSep (ks.take 5) ++ "]") ∧
    (circularKeyInfo [] = "") ∧
    (∀ e : ErrorEntity,
      getField (toJSON e) "cause" = some (.causeVal (serializeCause e.cause))) := by
  refine ⟨rfl, rfl, fun b => rfl, fun n => rfl, fun s => rfl, fun n m st c => rfl,
    ?_, fun ct ks v => rfl, fun ct ks => rfl, ?_, ?_, rfl, fun e => rfl⟩
  · intro v
    induction v with
    | undef => rfl
    | null => rfl
    | boolVal b => rfl
    | numVal n => rfl
    | strVal s => rfl
    | errorVal n m st c ih => simp [serializeCause, serChainDepth, causeChainDepth, ih]
    | objVal ct ks rt =>
      cases rt with
      | none => rfl
      | some v => rfl
  · intro ks
    by_cases h : 5 < ks.length
    · simp [circularMore, h]
    · simp only [circularMore, gt_iff_lt, if_neg h]
      constructor
      · intro hc
        exact absurd hc (by decide)
      · intro hl
        exact absurd hl h
  · intro ks hne
    cases ks with
    | nil => exact absurd rfl hne
    | cons a l => simp [circularKeyInfo]

/-- C5 (witness): the summary clauses of the policy at a concrete
six-key circular object: the key list shows the first five names and the
ellipsis marker is present. -/
theorem serializeCause_policy_witness :
    circularKeyInfo ["a", "b", "c", "d", "e", "f"] =
      " with keys: [" ++ joinCommaSep (["a", "b", "c", "d", "e", "f"].take 5) ++ "]" ∧
    (circularMore ["a", "b", "c", "d", "e", "f"] = "..." ↔
      5 < (["a", "b", "c", "d", "e", "f"] : List String).length) :=
  ⟨serializeCause_policy.2.2.2.2.2.2.2.2.2.2.1 ["a", "b", "c", "d", "e", "f"] (by decide),
   serializeCause_policy.2.2.2.2.2.2.2.2.2.1 ["a", "b", "c", "d", "e", "f"]⟩

/-- C6 (counterexample): populating the default user message with the
*empty string* — a legal `withUserMessage` call — leaves the annex set
(`some ""`) yet `toJSON` omits the `userMessage` key, because the guard
`if (this._defaultUserMessage)` is JS truthiness and `""` is falsy.  So
"contains `userMessage` iff the annex was populated" fails as stated. -/
theorem toJSON_empty_default_cx :
    emptyDefaultEnt.defaultUserMessage = some "" ∧
    hasField (toJSON emptyDefaultEnt) "userMessage" = false ∧
    getField (toJSON emptyDefaultEnt) "userMessage" = none :=
  ⟨rfl, rfl, rfl⟩

/-- C6 (amended): `toJSON` always contains the six fields `name`,
`message`, `timestamp`, `timestampIso`, `stack` and `cause`; it contains
`userMessage` exactly when the default user message is set *to a
non-empty string* (JS truthiness of the annex), and `localizedMessages`
exactly when at least one localized entry exists; when a conditional key
is not included it is absent from the record entirely (lookup finds no
entry), not present with a null value. -/
theorem toJSON_field_policy (e : ErrorEntity) :
    hasField (toJSON e) "name" = true ∧
    hasField (toJSON e) "message" = true ∧
    hasField (toJSON e) "timestamp" = true ∧
    hasField (toJSON e) "timestampIso" = true ∧
    hasField (toJSON e) "stack" = true ∧
    hasField (toJSON e) "cause" = true ∧
    hasField (toJSON e) "userMessage" = strTruthy e.defaultUserMessage ∧
    (hasField (toJSON e) "localizedMessages" = true ↔ e.localizedMessages ≠ []) ∧
    (strTruthy e.defaultUserMessage = false →
      getField (toJSON e) "userMessage" = none) ∧
    (e.localizedMessages = [] →
      getField (toJSON e) "localizedMessages" = none) := by
  refine ⟨rfl, rfl, rfl, rfl, rfl, rfl, ?_, ?_, ?_, ?_⟩
  · cases hd : strTruthy e.defaultUserMessage <;>
      cases hl : e.localizedMessages <;>
        simp [toJSON, hasField, hd, hl]
  · cases hd : strTruthy e.defaultUserMessage <;>
      cases hl : e.localizedMessages <;>
        simp [toJSON, hasField, hd, hl]
  · intro h0
    cases hl : e.localizedMessages <;> simp [toJSON, getField, h0, hl]
  · intro h0
    cases hd : strTruthy e.defaultUserMessage <;> simp [toJSON, getField, h0, hd]

/-- C6 (witness): the amended policy at a fresh entity with neither annex
populated: the unconditional `cause` key is present, and both
conditional keys are entirely absent. -/
theorem toJSON_field_policy_witness :
    hasField (toJSON bareEnt) "cause" = true ∧
    getField (toJSON bareEnt) "userMessage" = none ∧
    getField (toJSON bareEnt) "localizedMessages" = none :=
  ⟨(toJSON_field_policy bareEnt).2.2.2.2.2.1,
   (toJSON_field_policy bareEnt).2.2.2.2.2.2.2.2.1 rfl,
   (toJSON_field_policy bareEnt).2.2.2.2.2.2.2.2.2 rfl⟩

/-- C7: `toString` returns exactly `"[<name>] <message>"`; the
`"\nCaused by: <cause>"` segment (built from the cause's default textual
coercion) is appended only when a cause is present — an entity with no
cause yields the bare form, a result other than the bare form implies a
cause is present, and a (truthy) cause yields exactly the bare form plus
the segment.  The concrete scenario: a `UserNotFoundError` with message
`"User 42 not found"` and no cause displays as
`"[UserNotFoundError] User 42 not found"` with its cause annex absent. -/
theorem toDisplay_contract :
    (∀ e : ErrorEntity, e.cause = .undef →
      e.toDisplay = "[" ++ e.name ++ "] " ++ e.message) ∧
    (∀ e : ErrorEntity, e.cause.truthy = true →
      e.toDisplay =
        "[" ++ e.name ++ "] " ++ e.message ++ ("\nCaused by: " ++ e.cause.display)) ∧
    (∀ e : ErrorEntity,
      e.toDisplay ≠ "[" ++ e.name ++ "] " ++ e.message → e.cause ≠ .undef) ∧
    (∀ (h : Host) (t1 t2 : Nat),
      ((mkBaseError h "UserNotFoundError" "User 42 not found" .undef t1 t2).1).toDisplay =
        "[UserNotFoundError] User 42 not found" ∧
      ((mkBaseError h "UserNotFoundError" "User 42 not found" .undef t1 t2).1).cause =
        .undef) := by
  have part1 : ∀ e : ErrorEntity, e.cause = .undef →
      e.toDisplay = "[" ++ e.name ++ "] " ++ e.message := by
    intro e h
    unfold ErrorEntity.toDisplay
    rw [h]
    simp [JSVal.truthy]
  refine ⟨part1, ?_, ?_, ?_⟩
  · intro e h
    unfold ErrorEntity.toDisplay
    rw [h]
    simp
  · intro e hne hc
    exact hne (part1 e hc)
  · intro h t1 t2
    exact ⟨rfl, rfl⟩

/-- C7 (witness): the no-cause clause of the contract at a concrete
entity. -/
theorem toDisplay_contract_witness :
    bareEnt.toDisplay = "[" ++ bareEnt.name ++ "] " ++ bareEnt.message :=
  toDisplay_contract.1 bareEnt rfl

/-- C8: the stack-capture routine leaves the host-global
`Error.stackTraceLimit` unchanged on every exit path — the fast-path
branch (capture primitive present), the throwaway-error branch, and the
no-trace branch — and therefore any sequence of constructions reads the
same limit after the last construction as before the first.  (The routine
never writes any host state at all.) -/
theorem stackTraceLimit_invariant :
    (∀ (h : Host) (n m : String),
      ((captureStack h n m).2).stackTraceLimit = h.stackTraceLimit) ∧
    (∀ (h : Host) (a : ConstructArgs),
      ((mkBaseError h a.ctorName a.message a.cause a.tNow a.tIso).2).stackTraceLimit =
        h.stackTraceLimit) ∧
    (∀ (h : Host) (args : List ConstructArgs),
      (constructSeq h args).stackTraceLimit = h.stackTraceLimit) := by
  have cap : ∀ (h : Host) (n m : String), (captureStack h n m).2 = h :=
    fun h n m => rfl
  have mkcap : ∀ (h : Host) (n m : String) (c : JSVal) (t1 t2 : Nat),
      (mkBaseError h n m c t1 t2).2 = h := by
    intro h n m c t1 t2
    exact cap h n m
  refine ⟨fun h n m => by rw [cap], fun h a => by rw [mkcap], ?_⟩
  intro h args
  induction args generalizing h with
  | nil => rfl
  | cons a rest ih =>
    show (constructSeq (mkBaseError h a.ctorName a.message a.cause a.tNow a.tIso).2
      rest).stackTraceLimit = h.stackTraceLimit
    rw [mkcap]
    exact ih h

/-- C9 (counterexample): the filtered trace *can* contain the literal
marker substrings, because its header is `"<name>: <message>"` and the
technical message is an arbitrary string: constructing with the message
`"boom #captureStack happened"` yields a trace containing
`"#captureStack"`, so "the trace never contains the literal substrings
naming the capture/filter routines" fails as stated.  (The lines after
the header — the actual frames — are filtered; only the header can carry
a marker.) -/
theorem stack_contains_marker_cx :
    ((mkBaseError hostV8 "E" "boom #captureStack happened" .undef 0 0).1).stack =
      some ("E: boom #captureStack happened" ++
        "\n    at doWork (app.js:10:5)\n    at main (app.js:20:1)") ∧
    containsSub ("E: boom #captureStack happened" ++
      "\n    at doWork (app.js:10:5)\n    at main (app.js:20:1)") "#captureStack" = true := by
  refine ⟨rfl, ?_⟩
  decide

/-- C9 (amended): whenever a constructed entity's trace is present, it is
the join of the line list built by the filter from the host's raw trace:
the first line of that list is exactly `"<name>: <message>"`, and no
later line contains any of the internal-frame marker substrings (the
capture routine, the filter routine, the constructor, or the compiled
construction-dispatch wrapper names) — so the trace can mention the
capture/filter routine names only through the caller-chosen `name` or
`message` in its header. -/
theorem stack_filter_amended (h : Host) (name message : String) (cause : JSVal)
    (t1 t2 : Nat) (raw st : String)
    (hraw : rawTraceOf h = some raw)
    (hst : ((mkBaseError h name message cause t1 t2).1).stack = some st) :
    st = joinNl (filteredLines name message (splitLines raw)) ∧
    (filteredLines name message (splitLines raw)).head? =
      some (name ++ ": " ++ message) ∧
    ((filteredLines name message (splitLines raw)).drop 1).all
      (fun l => !(containsSub l "#captureStack") &&
        !(containsSub l "#filterInternalFrames") &&
        !(containsSub l "BaseError.constructor") &&
        !(containsSub l "new BaseError") &&
        !(containsSub l "captureStack_fn") &&
        !(containsSub l "filterInternalFrames_fn")) = true := by
  have allmark : ∀ (nm ms : String) (rl : List String),
      ((filteredLines nm ms rl).drop 1).all
        (fun l => !(containsSub l "#captureStack") &&
          !(containsSub l "#filterInternalFrames") &&
          !(containsSub l "BaseError.constructor") &&
          !(containsSub l "new BaseError") &&
          !(containsSub l "captureStack_fn") &&
          !(containsSub l "filterInternalFrames_fn")) = true := by
    intro nm ms rl
    apply List.all_eq_true.mpr
    intro l hl
    have hmem : l ∈ (rl.drop 1).filter (fun x => !(isInternalFrame x)) := hl
    have hpred := (List.mem_filter.mp hmem).2
    have hfalse : isInternalFrame l = false := by
      simpa using hpred
    unfold isInternalFrame at hfalse
    simp only [Bool.or_eq_false_iff] at hfalse
    obtain ⟨⟨⟨⟨⟨⟨h1, h2⟩, h3⟩, h4⟩, h5⟩, h6⟩, -⟩ := hfalse
    simp [h1, h2, h3, h4, h5, h6]
  obtain ⟨lim, cst, ths⟩ := h
  cases cst with
  | some raw0 =>
    have hr : raw0 = raw := Option.some.inj hraw
    subst hr
    have hst3 : (if (raw0 == "") = true then none
        else some (joinNl (filteredLines name message (splitLines raw0)))) = some st := hst
    cases he : (raw0 == "") with
    | true =>
      rw [he] at hst3
      simp at hst3
    | false =>
      rw [he] at hst3
      simp only [Bool.false_eq_true, if_false] at hst3
      exact ⟨(Option.some.inj hst3).symm, rfl, allmark name message (splitLines raw0)⟩
  | none =>
    cases ths with
    | none => exact absurd (show (none : Option String) = some raw from hraw) (by simp)
    | some ts =>
      have hr : ts = raw := Option.some.inj (show some ts = some raw from hraw)
      subst hr
      have hst3 : (if (ts == "") = true then none
          else filterInternalFrames name message (some ts)) = some st := hst
      cases he : (ts == "") with
      | true =>
        rw [he] at hst3
        simp at hst3
      | false =>
        rw [he] at hst3
        simp only [Bool.false_eq_true, if_false] at hst3
        have hst4 : (if (ts == "") = true then none
            else some (joinNl (filteredLines name message (splitLines ts)))) = some st := hst3
        rw [he] at hst4
        simp only [Bool.false_eq_true, if_false] at hst4
        exact ⟨(Option.some.inj hst4).symm, rfl, allmark name message (splitLines ts)⟩

/-- C9 (witness): the amended theorem at a concrete V8-style host whose
raw trace carries an internal `new BaseError` frame: the filtered trace
drops that frame, keeps the application frame, and its header is
`"E: m"`. -/
theorem stack_filter_amended_witness :
    ("E: m\n    at doWork (app.js:10:5)" =
      joinNl (filteredLines "E" "m" (splitLines
        "Error\n    at new BaseError (BaseError.ts:61:3)\n    at doWork (app.js:10:5)"))) ∧
    (filteredLines "E" "m" (splitLines
      "Error\n    at new BaseError (BaseError.ts:61:3)\n    at doWork (app.js:10:5)")).head? =
      some ("E" ++ ": " ++ "m") ∧
    ((filteredLines "E" "m" (splitLines
      "Error\n    at new BaseError (BaseError.ts:61:3)\n    at doWork (app.js:10:5)")).drop 1).all
      (fun l => !(containsSub l "#captureStack") &&
        !(containsSub l "#filterInternalFrames") &&
        !(containsSub l "BaseError.constructor") &&
        !(containsSub l "new BaseError") &&
        !(containsSub l "captureStack_fn") &&
        !(containsSub l "filterInternalFrames_fn")) = true :=
  stack_filter_amended hostV8Internal "E" "m" .undef 0 0
    "Error\n    at new BaseError (BaseError.ts:61:3)\n    at doWork (app.js:10:5)"
    "E: m\n    at doWork (app.js:10:5)" rfl rfl

/-- C10 (counterexample): a failing `addLocalizedMessage` does leave the
state unchanged, but the claim's observation clause fails for the empty
tag: with `{"": "a"}` stored and no default message, the duplicate add
for `""` throws and changes nothing, yet
`resolveUserMessage({preferredLang: ""})` returns the absent value, not
the previously stored `"a"` (the truthiness gate skips the empty tag). -/
theorem addLocalized_atomicity_cx :
    mapHas c10Ent.localizedMessages "" = true ∧
    addLocalizedMessage c10Ent "" "b" = .error (.duplicateLocalization "") ∧
    addLocalizedMessagePost c10Ent "" "b" = c10Ent ∧
    mapGet c10Ent.localizedMessages "" = some "a" ∧
    getUserMessage (addLocalizedMessagePost c10Ent "" "b") (some "") none = none ∧
    getUserMessage (addLocalizedMessagePost c10Ent "" "b") (some "") none ≠
      mapGet c10Ent.localizedMessages "" := by
  refine ⟨rfl, rfl, rfl, rfl, rfl, ?_⟩
  decide

/-- C10 (amended): for every tag already present, the failing
`addLocalizedMessage` call throws `DuplicateLocalization` and leaves the
entity's entire state — every field, including the stored entry for the
tag, every other localized entry, the default message, and the
identity/timestamp/trace fields — unchanged; and for every *non-empty*
such tag, `resolveUserMessage({preferredLang: lang})` afterwards still
returns the previously stored message. -/
theorem addLocalized_atomicity (e : ErrorEntity) (lang msg : String)
    (hdup : mapHas e.localizedMessages lang = true) :
    addLocalizedMessage e lang msg = .error (.duplicateLocalization lang) ∧
    addLocalizedMessagePost e lang msg = e ∧
    (lang ≠ "" →
      getUserMessage (addLocalizedMessagePost e lang msg) (some lang) none =
        mapGet e.localizedMessages lang) := by
  have h1 : addLocalizedMessage e lang msg = .error (.duplicateLocalization lang) := by
    unfold addLocalizedMessage
    rw [if_pos hdup]
  have h2 : addLocalizedMessagePost e lang msg = e := by
    unfold addLocalizedMessagePost
    rw [h1]
  refine ⟨h1, h2, ?_⟩
  intro hne
  rw [h2]
  unfold getUserMessage
  have ht : strTruthy (some lang) = true := by simp [strTruthy, hne]
  simp [ht, hdup]

/-- C10 (witness): the amended theorem at a concrete entity holding
`{en: "a"}`: the duplicate add for `"en"` leaves the entity unchanged and
the resolve still returns the stored entry. -/
theorem addLocalized_atomicity_witness :
    addLocalizedMessagePost seqEnt1 "en" "zzz" = seqEnt1 ∧
    getUserMessage (addLocalizedMessagePost seqEnt1 "en" "zzz") (some "en") none =
      mapGet seqEnt1.localizedMessages "en" := by
  have h := addLocalized_atomicity seqEnt1 "en" "zzz" rfl
  exact ⟨h.2.1, h.2.2 (by decide)⟩

end BaseErrorSpec
